import Mathlib

/-!
Shallow embedding of the rule-evaluation core of `src/lib/ruleEvaluator.ts`
(the crypto price-alert service "dont-look-at-the-chart").

Modelling conventions:
* Machine floats (prices, thresholds) are modelled as exact rationals `ℚ`.
  The percentage-change computation is performed in `JSNum`, a model of
  JavaScript `number` arithmetic restricted to the finite / ±Infinity / NaN
  cases reachable in the evaluator, so that the unguarded division by a zero
  historical price behaves as in the source (`x / 0 = Infinity` for `x > 0`).
* Instants (`Date` values) are epoch milliseconds `ℤ`, together with a
  timezone-indexed local wall-clock millisecond-of-day (the result of
  `toZonedTime`); building `startTime`/`endTime` on "today's date" in the
  user's zone and comparing `Date` objects on the same day is comparison of
  milliseconds-of-day.
* `quietTimeStart` / `quietTimeEnd` are stored in the DB as regex-validated
  "HH:MM" strings; they are modelled as parsed hour/minute pairs
  (`parseInt` on the two components is abstracted).
* Each `new Date()` read that happens while the orchestrator processes the
  rule at position `i` of the batch is modelled as `clk i` for an explicit
  clock `clk : ℕ → Instant`; the batch-insert timestamps at the end of the
  pass read `clk rules.length`.
* A rejected promise inside the per-rule `try` block (e.g. the historical
  price query failing) is modelled by the injection flag `evalThrows` on the
  rule's context; the `catch` turns it into an empty outcome for that rule.
-/

namespace DLATC

/-- JavaScript `number` values reachable in the evaluator's percentage
computation: finite values (exact rationals), the two infinities, and NaN. -/
inductive JSNum where
  | num (q : ℚ)
  | posInf
  | negInf
  | nan
  deriving DecidableEq

namespace JSNum

/-- JavaScript subtraction, on the cases reachable here. -/
def sub : JSNum → JSNum → JSNum
  | num a, num b => num (a - b)
  | nan, _ => nan
  | _, nan => nan
  | posInf, negInf => posInf
  | posInf, posInf => nan
  | posInf, num _ => posInf
  | negInf, posInf => negInf
  | negInf, negInf => nan
  | negInf, num _ => negInf
  | num _, posInf => negInf
  | num _, negInf => posInf

/-- JavaScript division: `a / 0` is `±Infinity` for finite nonzero `a`
(signed zero is not modelled; prices are nonnegative), `0 / 0` is `NaN`. -/
def div : JSNum → JSNum → JSNum
  | num a, num b =>
      if b = 0 then
        if a = 0 then nan else if a > 0 then posInf else negInf
      else num (a / b)
  | nan, _ => nan
  | _, nan => nan
  | posInf, num b => if b < 0 then negInf else posInf
  | negInf, num b => if b < 0 then posInf else negInf
  | num _, posInf => num 0
  | num _, negInf => num 0
  | posInf, posInf => nan
  | posInf, negInf => nan
  | negInf, posInf => nan
  | negInf, negInf => nan

/-- JavaScript multiplication, on the cases reachable here. -/
def mul : JSNum → JSNum → JSNum
  | num a, num b => num (a * b)
  | nan, _ => nan
  | _, nan => nan
  | posInf, num b => if b = 0 then nan else if b > 0 then posInf else negInf
  | negInf, num b => if b = 0 then nan else if b > 0 then negInf else posInf
  | num a, posInf => if a = 0 then nan else if a > 0 then posInf else negInf
  | num a, negInf => if a = 0 then nan else if a > 0 then negInf else posInf
  | posInf, posInf => posInf
  | posInf, negInf => negInf
  | negInf, posInf => negInf
  | negInf, negInf => posInf

/-- JavaScript `<=` as a boolean; any comparison involving NaN is false. -/
def jsLe : JSNum → JSNum → Bool
  | nan, _ => false
  | _, nan => false
  | num a, num b => decide (a ≤ b)
  | negInf, _ => true
  | num _, posInf => true
  | posInf, posInf => true
  | posInf, _ => false
  | num _, negInf => false

/-- JavaScript `>=` as a boolean. -/
def jsGe (a b : JSNum) : Bool := jsLe b a

end JSNum

/-- A `Date` instant: absolute epoch milliseconds plus, for each IANA
timezone name, the local wall-clock millisecond-of-day that `toZonedTime`
yields for this instant in that zone. -/
structure Instant where
  epochMs : ℤ
  localMsOfDay : String → ℕ

/-- A parsed "HH:MM" time-of-day (the DB stores the validated string;
`parseInt` on its two components is abstracted into the two fields). -/
structure TimeHM where
  hour : ℕ
  minute : ℕ
  deriving DecidableEq

/-- Millisecond-of-day of an "HH:MM" time: the `Date` produced by
`setHours(hour, minute, 0, 0)` on today's date, compared within the day. -/
def TimeHM.toMs (t : TimeHM) : ℕ := (t.hour * 60 + t.minute) * 60000

/-- The user fields read by the evaluator (`@prisma/client` `User`). -/
structure User where
  id : String
  email : String
  phoneNumber : Option String
  quietTimeEnabled : Bool
  quietTimeStart : Option TimeHM
  quietTimeEnd : Option TimeHM
  quietTimeZone : Option String
  deriving DecidableEq

/-- A `PriceHistory` row: asset, float price (as `ℚ`), epoch-ms timestamp. -/
structure PriceHistory where
  assetId : String
  price : ℚ
  timestamp : ℤ
  deriving DecidableEq

/-- The `NotificationRuleType` enum. -/
inductive NotificationRuleType where
  | PRICE_TARGET_ABOVE
  | PRICE_TARGET_BELOW
  | PERCENT_CHANGE_INCREASE
  | PERCENT_CHANGE_DECREASE
  deriving DecidableEq

/-- The `NotificationRule` fields read by the evaluator.  `timeWindowHours`
is a nullable integer column. -/
structure NotificationRule where
  id : String
  type : NotificationRuleType
  value : ℚ
  timeWindowHours : Option ℤ
  isEnabled : Bool
  deriving DecidableEq

/-- A `TriggeredAlert` row (the firing record). -/
structure TriggeredAlert where
  ruleId : String
  triggeringPrice : ℚ
  triggeredAt : ℤ
  deriving DecidableEq

/-- The notification payload built for non-suppressed triggered rules
(`TriggeredRuleInfo` in the source). -/
structure TriggeredRuleInfo where
  ruleId : String
  trackedAssetId : String
  userId : String
  assetSymbol : String
  assetName : String
  ruleType : NotificationRuleType
  ruleValue : ℚ
  triggeringPrice : ℚ
  userEmail : String
  userPhoneNumber : Option String
  deriving DecidableEq

/--
`isQuietTime` from the source.  The source reads `new Date()` itself; that
clock read is the explicit `now` argument here.  `nowZoned`, `startTime` and
`endTime` all carry today's date in the user's zone, so the source's `Date`
comparisons are comparisons of millisecond-of-day: `n` below is `nowZoned`'s
local ms-of-day, `S`/`E` are the ms-of-day of the start/end times (seconds
and milliseconds zeroed by `setHours(h, m, 0, 0)`).  The same-day branch is
date-fns `isWithinInterval`, which is inclusive at both endpoints; the
overnight branch is `nowZoned >= startTime || nowZoned < endTime`.
-/
def isQuietTime (user : User) (now : Instant) : Bool :=
  match user.quietTimeEnabled, user.quietTimeStart, user.quietTimeEnd, user.quietTimeZone with
  | true, some s, some e, some tz =>
      let n := now.localMsOfDay tz
      let S := s.toMs
      let E := e.toMs
      if S > E then
        decide (n ≥ S) || decide (n < E)
      else
        decide (S ≤ n) && decide (n ≤ E)
  | _, _, _, _ => false

/-- The `prisma.priceHistory.findFirst` query of the evaluator: among rows
with the given asset and `timestamp ≥ startTime`, the one with the smallest
timestamp (first row wins on timestamp ties). -/
def findFirstAtOrAfter (hist : List PriceHistory) (aid : String) (startTime : ℤ) :
    Option PriceHistory :=
  (hist.filter (fun p => p.assetId == aid && decide (p.timestamp ≥ startTime))).foldl
    (fun acc p =>
      match acc with
      | none => some p
      | some q => if p.timestamp < q.timestamp then some p else acc)
    none

/-- The JavaScript computation
`(latestPrice.price - startPriceRecord.price) / startPriceRecord.price * 100`. -/
def percentChange (latest historical : ℚ) : JSNum :=
  JSNum.mul (JSNum.div (JSNum.sub (JSNum.num latest) (JSNum.num historical))
    (JSNum.num historical)) (JSNum.num 100)

/--
The `switch (rule.type)` block of the evaluator: whether the rule's
condition is met given the latest price and the price-history table.
`if (rule.timeWindowHours)` is a JavaScript truthiness test: `null` and `0`
are falsy.  The historical lookup is guarded only by record existence; the
record's price is used as divisor unguarded.
-/
def evalCondition (hist : List PriceHistory) (aid : String) (latestPrice : PriceHistory)
    (rule : NotificationRule) : Bool :=
  match rule.type with
  | .PRICE_TARGET_ABOVE => decide (latestPrice.price > rule.value)
  | .PRICE_TARGET_BELOW => decide (latestPrice.price < rule.value)
  | .PERCENT_CHANGE_INCREASE =>
      match rule.timeWindowHours with
      | none => false
      | some w =>
          if w = 0 then false
          else
            match findFirstAtOrAfter hist aid (latestPrice.timestamp - w * 3600000) with
            | none => false
            | some sp => JSNum.jsGe (percentChange latestPrice.price sp.price) (JSNum.num rule.value)
  | .PERCENT_CHANGE_DECREASE =>
      match rule.timeWindowHours with
      | none => false
      | some w =>
          if w = 0 then false
          else
            match findFirstAtOrAfter hist aid (latestPrice.timestamp - w * 3600000) with
            | none => false
            | some sp => JSNum.jsLe (percentChange latestPrice.price sp.price) (JSNum.num rule.value)

/-- The cooldown length constant `RULE_COOLDOWN_MINUTES = 60`. -/
def RULE_COOLDOWN_MINUTES : ℤ := 60

/-- One loaded rule together with the relations the orchestrator includes
(`trackedAsset.asset`, `trackedAsset.user`, and the single most recent
`triggeredAlerts` row).  `evalThrows` injects a rejection of the per-rule
evaluation (e.g. the historical-price query failing). -/
structure RuleCtx where
  rule : NotificationRule
  user : User
  assetId : String
  assetSymbol : String
  assetName : String
  trackedAssetId : String
  userId : String
  lastTriggered : Option TriggeredAlert
  evalThrows : Bool

/-- Terminal outcome of one rule within a pass. -/
inductive RuleOutcome where
  | skippedNoPrice
  | skippedCooldown
  | notMet
  | metSuppressed (rec : TriggeredAlert)
  | metNotified (info : TriggeredRuleInfo)
  deriving DecidableEq

/-- The cooldown gate: skip iff a most recent firing exists and
`lastTriggered.triggeredAt > now - RULE_COOLDOWN_MINUTES` (the source builds
`cooldownThreshold` from a fresh `new Date()` minus 60 minutes). -/
def shouldSkipCooldown (now : Instant) (ctx : RuleCtx) : Bool :=
  match ctx.lastTriggered with
  | none => false
  | some la => decide (la.triggeredAt > now.epochMs - RULE_COOLDOWN_MINUTES * 60000)

/--
Processing of one rule in the `for` loop of `evaluateRules`: missing latest
price skips the rule; then the cooldown gate; then the `try` block (an
injected throw is caught and leaves the rule with no outcome, i.e. not met);
then the condition; for met conditions the quiet-time check decides between
recording a suppressed alert immediately and queueing a notification.
`now` is the instant of the `new Date()` reads made while this rule is
processed.
-/
def processRule (hist : List PriceHistory) (latest : String → Option PriceHistory)
    (now : Instant) (ctx : RuleCtx) : RuleOutcome :=
  match latest ctx.assetId with
  | none => .skippedNoPrice
  | some lp =>
      if shouldSkipCooldown now ctx then .skippedCooldown
      else if ctx.evalThrows then .notMet
      else if evalCondition hist ctx.assetId lp ctx.rule then
        if isQuietTime ctx.user now then
          .metSuppressed { ruleId := ctx.rule.id, triggeringPrice := lp.price,
                           triggeredAt := now.epochMs }
        else
          .metNotified { ruleId := ctx.rule.id, trackedAssetId := ctx.trackedAssetId,
                         userId := ctx.userId, assetSymbol := ctx.assetSymbol.toUpper,
                         assetName := ctx.assetName, ruleType := ctx.rule.type,
                         ruleValue := ctx.rule.value, triggeringPrice := lp.price,
                         userEmail := ctx.user.email, userPhoneNumber := ctx.user.phoneNumber }
      else .notMet

/-- The suppressed firing record an outcome writes during the loop. -/
def outcomeRecs : RuleOutcome → List TriggeredAlert
  | .metSuppressed rec => [rec]
  | _ => []

/-- The notification payload an outcome appends to `triggeredRules`. -/
def outcomeNotifs : RuleOutcome → List TriggeredRuleInfo
  | .metNotified info => [info]
  | _ => []

/-- Result of one pass: all firing records written (suppressed ones in loop
order, then the end-of-pass batch for notified ones) and the notification
batch handed to `sendNotifications`. -/
structure PassResult where
  records : List TriggeredAlert
  notifications : List TriggeredRuleInfo
  deriving DecidableEq

/-- The batch `triggeredAlert.createMany` row built at the end of the pass
for a notified rule (its `triggeredAt` is a fresh `new Date()`). -/
def batchRecord (stamp : ℤ) (t : TriggeredRuleInfo) : TriggeredAlert :=
  { ruleId := t.ruleId, triggeringPrice := t.triggeringPrice, triggeredAt := stamp }

/-- Loop-order list of suppressed firing records, rules at positions
`i0, i0+1, …` of the batch. -/
def passRecs (hist : List PriceHistory) (latest : String → Option PriceHistory)
    (clk : ℕ → Instant) (i0 : ℕ) : List RuleCtx → List TriggeredAlert
  | [] => []
  | c :: cs =>
      outcomeRecs (processRule hist latest (clk i0) c) ++ passRecs hist latest clk (i0 + 1) cs

/-- Loop-order list of notification payloads (`triggeredRules`). -/
def passNotifs (hist : List PriceHistory) (latest : String → Option PriceHistory)
    (clk : ℕ → Instant) (i0 : ℕ) : List RuleCtx → List TriggeredRuleInfo
  | [] => []
  | c :: cs =>
      outcomeNotifs (processRule hist latest (clk i0) c) ++ passNotifs hist latest clk (i0 + 1) cs

/--
One pass of `evaluateRules` over the already-loaded batch: `rules` is the
list of enabled rules with context, `latest` the bulk-loaded latest-price
map, `hist` the price-history table answering the per-rule historical
queries, and `clk i` the instant of the clock reads made while rule `i` is
processed (the end-of-pass batch insert stamps its rows with
`clk rules.length`).
-/
def evaluateRules (hist : List PriceHistory) (latest : String → Option PriceHistory)
    (clk : ℕ → Instant) (rules : List RuleCtx) : PassResult :=
  let step := fun (acc : ℕ × List TriggeredAlert × List TriggeredRuleInfo) (ctx : RuleCtx) =>
    let out := processRule hist latest (clk acc.1) ctx
    (acc.1 + 1, acc.2.1 ++ outcomeRecs out, acc.2.2 ++ outcomeNotifs out)
  let final := rules.foldl step (0, [], [])
  { records := final.2.1 ++ final.2.2.map (batchRecord (clk rules.length).epochMs),
    notifications := final.2.2 }

/-- The step of the earliest-timestamp fold in `findFirstAtOrAfter`. -/
def ffStep (acc : Option PriceHistory) (p : PriceHistory) : Option PriceHistory :=
  match acc with
  | none => some p
  | some q => if p.timestamp < q.timestamp then some p else acc

/-- Example user with no quiet-time configuration. -/
def exUserNone : User :=
  { id := "u0", email := "u0@example.com", phoneNumber := none,
    quietTimeEnabled := false, quietTimeStart := none, quietTimeEnd := none,
    quietTimeZone := none }

/-- Example user for the C3 counterexample: quiet window 09:00–17:00. -/
def c3User : User :=
  { id := "u1", email := "u1@example.com", phoneNumber := none,
    quietTimeEnabled := true, quietTimeStart := some ⟨9, 0⟩,
    quietTimeEnd := some ⟨17, 0⟩, quietTimeZone := some "America/New_York" }

/-- Example clock for the C3 counterexample: the clock reads made while rule
0 is processed see local wall clock 10:00 (inside the quiet window); all
later reads see local midnight (outside it). -/
def c3Clk : ℕ → Instant :=
  fun i => { epochMs := 0, localMsOfDay := fun _ => if i = 0 then 36000000 else 0 }

/-- Example rule context for the C3 counterexample: a price-above-50 rule
owned by `c3User`. -/
def c3Ctx (rid : String) : RuleCtx :=
  { rule := { id := rid, type := .PRICE_TARGET_ABOVE, value := 50,
              timeWindowHours := none, isEnabled := true },
    user := c3User, assetId := "btc", assetSymbol := "btc", assetName := "Bitcoin",
    trackedAssetId := "ta1", userId := "u1", lastTriggered := none, evalThrows := false }

/-- Example latest-price map: price 100 for every asset. -/
def c3Latest : String → Option PriceHistory :=
  fun _ => some { assetId := "btc", price := 100, timestamp := 0 }

/-- Example rule context inside its cooldown window: most recent firing at
epoch 34200000 ms (30 minutes before the example instant 36000000 ms). -/
def c7Ctx : RuleCtx :=
  { rule := { id := "r7", type := .PRICE_TARGET_ABOVE, value := 50,
              timeWindowHours := none, isEnabled := true },
    user := exUserNone, assetId := "btc", assetSymbol := "btc", assetName := "Bitcoin",
    trackedAssetId := "ta7", userId := "u0",
    lastTriggered := some { ruleId := "r7", triggeringPrice := 90, triggeredAt := 34200000 },
    evalThrows := false }

/-- Example sibling rule for the C8 witness. -/
def c8B : RuleCtx :=
  { rule := { id := "rB", type := .PRICE_TARGET_ABOVE, value := 50,
              timeWindowHours := none, isEnabled := true },
    user := exUserNone, assetId := "btc", assetSymbol := "btc", assetName := "Bitcoin",
    trackedAssetId := "taB", userId := "u0", lastTriggered := none, evalThrows := false }

/-- Example throwing rule for the C8 witness. -/
def c8C : RuleCtx :=
  { rule := { id := "rC", type := .PRICE_TARGET_ABOVE, value := 50,
              timeWindowHours := none, isEnabled := true },
    user := exUserNone, assetId := "btc", assetSymbol := "btc", assetName := "Bitcoin",
    trackedAssetId := "taC", userId := "u0", lastTriggered := none, evalThrows := false }

/-- Example percentage rule with a null time window, for the C10 witness. -/
def c10Ctx : RuleCtx :=
  { rule := { id := "rX", type := .PERCENT_CHANGE_INCREASE, value := 5,
              timeWindowHours := none, isEnabled := true },
    user := exUserNone, assetId := "btc", assetSymbol := "btc", assetName := "Bitcoin",
    trackedAssetId := "taX", userId := "u0", lastTriggered := none, evalThrows := false }

theorem evaluateRules_foldl (hist : List PriceHistory) (latest : String → Option PriceHistory)
    (clk : ℕ → Instant) (rules : List RuleCtx) (i0 : ℕ) (rs : List TriggeredAlert)
    (ts : List TriggeredRuleInfo) :
    rules.foldl
      (fun (acc : ℕ × List TriggeredAlert × List TriggeredRuleInfo) (ctx : RuleCtx) =>
        let out := processRule hist latest (clk acc.1) ctx
        (acc.1 + 1, acc.2.1 ++ outcomeRecs out, acc.2.2 ++ outcomeNotifs out))
      (i0, rs, ts)
      = (i0 + rules.length, rs ++ passRecs hist latest clk i0 rules,
         ts ++ passNotifs hist latest clk i0 rules) := by
  induction rules generalizing i0 rs ts with
  | nil => simp [passRecs, passNotifs]
  | cons c cs ih =>
      simp only [List.foldl_cons, List.length_cons, ih, passRecs, passNotifs]
      refine Prod.ext ?_ (Prod.ext ?_ ?_) <;> simp <;> omega

/-- The pass result, decomposed into per-rule contributions. -/
theorem evaluateRules_eq (hist : List PriceHistory) (latest : String → Option PriceHistory)
    (clk : ℕ → Instant) (rules : List RuleCtx) :
    evaluateRules hist latest clk rules =
      { records := passRecs hist latest clk 0 rules ++
          (passNotifs hist latest clk 0 rules).map (batchRecord (clk rules.length).epochMs),
        notifications := passNotifs hist latest clk 0 rules } := by
  simp [evaluateRules, evaluateRules_foldl]

theorem passRecs_append (hist : List PriceHistory) (latest : String → Option PriceHistory)
    (clk : ℕ → Instant) (i0 : ℕ) (l1 l2 : List RuleCtx) :
    passRecs hist latest clk i0 (l1 ++ l2)
      = passRecs hist latest clk i0 l1 ++ passRecs hist latest clk (i0 + l1.length) l2 := by
  induction l1 generalizing i0 with
  | nil => simp [passRecs]
  | cons c cs ih =>
      simp only [List.cons_append, passRecs, List.append_eq, ih, List.length_cons,
        List.append_assoc]
      have h2 : i0 + 1 + cs.length = i0 + (cs.length + 1) := by omega
      rw [h2]

theorem passNotifs_append (hist : List PriceHistory) (latest : String → Option PriceHistory)
    (clk : ℕ → Instant) (i0 : ℕ) (l1 l2 : List RuleCtx) :
    passNotifs hist latest clk i0 (l1 ++ l2)
      = passNotifs hist latest clk i0 l1 ++ passNotifs hist latest clk (i0 + l1.length) l2 := by
  induction l1 generalizing i0 with
  | nil => simp [passNotifs]
  | cons c cs ih =>
      simp only [List.cons_append, passNotifs, List.append_eq, ih, List.length_cons,
        List.append_assoc]
      have h2 : i0 + 1 + cs.length = i0 + (cs.length + 1) := by omega
      rw [h2]

theorem processRule_none (hist : List PriceHistory) (latest : String → Option PriceHistory)
    (now : Instant) (c : RuleCtx) (h : latest c.assetId = none) :
    processRule hist latest now c = .skippedNoPrice := by
  unfold processRule; rw [h]

theorem processRule_some (hist : List PriceHistory) (latest : String → Option PriceHistory)
    (now : Instant) (c : RuleCtx) (lp : PriceHistory) (h : latest c.assetId = some lp) :
    processRule hist latest now c =
      if shouldSkipCooldown now c then .skippedCooldown
      else if c.evalThrows then .notMet
      else if evalCondition hist c.assetId lp c.rule then
        if isQuietTime c.user now then
          .metSuppressed { ruleId := c.rule.id, triggeringPrice := lp.price,
                           triggeredAt := now.epochMs }
        else
          .metNotified { ruleId := c.rule.id, trackedAssetId := c.trackedAssetId,
                         userId := c.userId, assetSymbol := c.assetSymbol.toUpper,
                         assetName := c.assetName, ruleType := c.rule.type,
                         ruleValue := c.rule.value, triggeringPrice := lp.price,
                         userEmail := c.user.email, userPhoneNumber := c.user.phoneNumber }
      else .notMet := by
  unfold processRule; rw [h]

theorem mem_outcomeRecs (out : RuleOutcome) (a : TriggeredAlert) :
    a ∈ outcomeRecs out ↔ out = .metSuppressed a := by
  cases out <;> simp [outcomeRecs] <;> exact eq_comm

theorem mem_outcomeNotifs (out : RuleOutcome) (t : TriggeredRuleInfo) :
    t ∈ outcomeNotifs out ↔ out = .metNotified t := by
  cases out <;> simp [outcomeNotifs] <;> exact eq_comm

/-- Inversion: the only way a rule writes a suppressed record. -/
theorem processRule_metSuppressed_inv (hist : List PriceHistory)
    (latest : String → Option PriceHistory) (now : Instant) (c : RuleCtx)
    (rec : TriggeredAlert) (h : processRule hist latest now c = .metSuppressed rec) :
    ∃ lp, latest c.assetId = some lp ∧ shouldSkipCooldown now c = false ∧
      c.evalThrows = false ∧ evalCondition hist c.assetId lp c.rule = true ∧
      isQuietTime c.user now = true ∧
      rec = { ruleId := c.rule.id, triggeringPrice := lp.price, triggeredAt := now.epochMs } := by
  rcases hl : latest c.assetId with _ | lp
  · rw [processRule_none hist latest now c hl] at h
    simp at h
  · rw [processRule_some hist latest now c lp hl] at h
    refine ⟨lp, rfl, ?_⟩
    split at h
    · simp at h
    · split at h
      · simp at h
      · split at h
        · split at h
          · exact ⟨by simp_all, by simp_all, by simp_all, by simp_all, by
              injection h with h2; exact h2.symm⟩
          · simp at h
        · simp at h

/-- Inversion: the only way a rule queues a notification. -/
theorem processRule_metNotified_inv (hist : List PriceHistory)
    (latest : String → Option PriceHistory) (now : Instant) (c : RuleCtx)
    (info : TriggeredRuleInfo) (h : processRule hist latest now c = .metNotified info) :
    ∃ lp, latest c.assetId = some lp ∧ shouldSkipCooldown now c = false ∧
      c.evalThrows = false ∧ evalCondition hist c.assetId lp c.rule = true ∧
      isQuietTime c.user now = false ∧
      info = { ruleId := c.rule.id, trackedAssetId := c.trackedAssetId, userId := c.userId,
               assetSymbol := c.assetSymbol.toUpper, assetName := c.assetName,
               ruleType := c.rule.type, ruleValue := c.rule.value, triggeringPrice := lp.price,
               userEmail := c.user.email, userPhoneNumber := c.user.phoneNumber } := by
  rcases hl : latest c.assetId with _ | lp
  · rw [processRule_none hist latest now c hl] at h
    simp at h
  · rw [processRule_some hist latest now c lp hl] at h
    refine ⟨lp, rfl, ?_⟩
    split at h
    · simp at h
    · split at h
      · simp at h
      · split at h
        · split at h
          · simp at h
          · exact ⟨by simp_all, by simp_all, by simp_all, by simp_all, by
              injection h with h2; exact h2.symm⟩
        · simp at h

/-- Every suppressed record a rule writes carries that rule's id. -/
theorem outcomeRecs_ruleId (hist : List PriceHistory) (latest : String → Option PriceHistory)
    (now : Instant) (c : RuleCtx) (a : TriggeredAlert)
    (h : a ∈ outcomeRecs (processRule hist latest now c)) : a.ruleId = c.rule.id := by
  rw [mem_outcomeRecs] at h
  obtain ⟨lp, -, -, -, -, -, ha⟩ := processRule_metSuppressed_inv hist latest now c a h
  rw [ha]

/-- Every notification payload a rule queues carries that rule's id. -/
theorem outcomeNotifs_ruleId (hist : List PriceHistory) (latest : String → Option PriceHistory)
    (now : Instant) (c : RuleCtx) (t : TriggeredRuleInfo)
    (h : t ∈ outcomeNotifs (processRule hist latest now c)) : t.ruleId = c.rule.id := by
  rw [mem_outcomeNotifs] at h
  obtain ⟨lp, -, -, -, -, -, ht⟩ := processRule_metNotified_inv hist latest now c t h
  rw [ht]

theorem passRecs_ruleId (hist : List PriceHistory) (latest : String → Option PriceHistory)
    (clk : ℕ → Instant) (i0 : ℕ) (l : List RuleCtx) (a : TriggeredAlert)
    (h : a ∈ passRecs hist latest clk i0 l) : ∃ c ∈ l, a.ruleId = c.rule.id := by
  induction l generalizing i0 with
  | nil => simp [passRecs] at h
  | cons c cs ih =>
      simp only [passRecs, List.mem_append] at h
      rcases h with h | h
      · exact ⟨c, by simp, outcomeRecs_ruleId hist latest (clk i0) c a h⟩
      · obtain ⟨d, hd, hid⟩ := ih (i0 + 1) h
        exact ⟨d, by simp [hd], hid⟩

theorem passNotifs_ruleId (hist : List PriceHistory) (latest : String → Option PriceHistory)
    (clk : ℕ → Instant) (i0 : ℕ) (l : List RuleCtx) (t : TriggeredRuleInfo)
    (h : t ∈ passNotifs hist latest clk i0 l) : ∃ c ∈ l, t.ruleId = c.rule.id := by
  induction l generalizing i0 with
  | nil => simp [passNotifs] at h
  | cons c cs ih =>
      simp only [passNotifs, List.mem_append] at h
      rcases h with h | h
      · exact ⟨c, by simp, outcomeNotifs_ruleId hist latest (clk i0) c t h⟩
      · obtain ⟨d, hd, hid⟩ := ih (i0 + 1) h
        exact ⟨d, by simp [hd], hid⟩

section QuietTimeClaims

/--
C5 (counterexample).  The claim says the same-day window's end boundary is
exclusive: an instant falling exactly on the end time is not quiet.  For the
window 09:00–17:00 and an instant whose local wall clock is exactly
17:00:00.000 (minute-of-day 1020 = the end minute, so the claimed
`m < endMinutes` is false), the code returns `true`: the same-day branch is
date-fns `isWithinInterval`, which includes both endpoints.
-/
theorem c5_counterexample :
    isQuietTime
      { id := "u1", email := "u1@example.com", phoneNumber := none,
        quietTimeEnabled := true, quietTimeStart := some ⟨9, 0⟩,
        quietTimeEnd := some ⟨17, 0⟩, quietTimeZone := some "America/New_York" }
      { epochMs := 0, localMsOfDay := fun _ => 61200000 } = true ∧
    (61200000 : ℕ) = 1020 * 60000 := by
  constructor
  · rfl
  · norm_num

/--
C5 (amended).  For every enabled, fully populated quiet-time configuration
whose start minute-of-day is strictly less than its end minute-of-day, the
check returns true iff the local wall-clock millisecond-of-day `n` of the
instant satisfies `startMs ≤ n ≤ endMs` — start boundary inclusive, and the
end boundary also inclusive of the exact end instant (second and millisecond
zero), because the same-day branch uses the endpoint-inclusive
`isWithinInterval`.  (Strictly inside the end minute, `n > endMs`, is not
quiet, so the claim's minute-based reading fails only at the exact instant.)
-/
theorem c5_amended (u : User) (now : Instant) (s e : TimeHM) (tz : String)
    (hen : u.quietTimeEnabled = true) (hs : u.quietTimeStart = some s)
    (he : u.quietTimeEnd = some e) (hz : u.quietTimeZone = some tz)
    (hlt : s.hour * 60 + s.minute < e.hour * 60 + e.minute) :
    isQuietTime u now = true ↔
      (s.toMs ≤ now.localMsOfDay tz ∧ now.localMsOfDay tz ≤ e.toMs) := by
  unfold isQuietTime
  rw [hen, hs, he, hz]
  have hms : ¬ s.toMs > e.toMs := by
    unfold TimeHM.toMs
    omega
  simp [hms]

/-- Witness for C5 (amended): window 09:00–17:00, local wall clock 10:00. -/
theorem c5_amended_witness :
    isQuietTime
      { id := "u1", email := "u1@example.com", phoneNumber := none,
        quietTimeEnabled := true, quietTimeStart := some ⟨9, 0⟩,
        quietTimeEnd := some ⟨17, 0⟩, quietTimeZone := some "UTC" }
      { epochMs := 0, localMsOfDay := fun _ => 36000000 } = true := by
  refine (c5_amended _ _ ⟨9, 0⟩ ⟨17, 0⟩ "UTC" rfl rfl rfl rfl (by norm_num)).mpr ?_
  unfold TimeHM.toMs
  norm_num

/--
C6 (counterexample).  The claim says a zero-duration window (start equals
end) is never active.  For the window 09:00–09:00 and an instant whose local
wall clock is exactly 09:00:00.000, the code returns `true`:
`startTime > endTime` is false, so the endpoint-inclusive `isWithinInterval`
branch runs with a one-instant interval containing exactly that instant.
-/
theorem c6_counterexample :
    isQuietTime
      { id := "u1", email := "u1@example.com", phoneNumber := none,
        quietTimeEnabled := true, quietTimeStart := some ⟨9, 0⟩,
        quietTimeEnd := some ⟨9, 0⟩, quietTimeZone := some "America/New_York" }
      { epochMs := 0, localMsOfDay := fun _ => 32400000 } = true := by
  rfl

/--
C6 (amended).  For every enabled, fully populated configuration whose start
time-of-day equals its end time-of-day, the check returns true iff the local
wall-clock millisecond-of-day is exactly the shared boundary instant, and
false for every other instant (the `isWithinInterval` branch runs with a
degenerate one-instant interval).
-/
theorem c6_amended (u : User) (now : Instant) (s : TimeHM) (tz : String)
    (hen : u.quietTimeEnabled = true) (hs : u.quietTimeStart = some s)
    (he : u.quietTimeEnd = some s) (hz : u.quietTimeZone = some tz) :
    isQuietTime u now = true ↔ now.localMsOfDay tz = s.toMs := by
  unfold isQuietTime
  rw [hen, hs, he, hz]
  simp
  omega

/-- Witness for C6 (amended): window 09:00–09:00, local wall clock 10:00,
not quiet. -/
theorem c6_amended_witness :
    isQuietTime
      { id := "u1", email := "u1@example.com", phoneNumber := none,
        quietTimeEnabled := true, quietTimeStart := some ⟨9, 0⟩,
        quietTimeEnd := some ⟨9, 0⟩, quietTimeZone := some "UTC" }
      { epochMs := 0, localMsOfDay := fun _ => 36000000 } = false := by
  have h := c6_amended
    { id := "u1", email := "u1@example.com", phoneNumber := none,
      quietTimeEnabled := true, quietTimeStart := some ⟨9, 0⟩,
      quietTimeEnd := some ⟨9, 0⟩, quietTimeZone := some "UTC" }
    { epochMs := 0, localMsOfDay := fun _ => 36000000 } ⟨9, 0⟩ "UTC" rfl rfl rfl rfl
  rcases hb : isQuietTime
    { id := "u1", email := "u1@example.com", phoneNumber := none,
      quietTimeEnabled := true, quietTimeStart := some ⟨9, 0⟩,
      quietTimeEnd := some ⟨9, 0⟩, quietTimeZone := some "UTC" }
    { epochMs := 0, localMsOfDay := fun _ => 36000000 } with _ | _
  · rfl
  · exfalso
    have h2 := h.mp hb
    unfold TimeHM.toMs at h2
    norm_num at h2

end QuietTimeClaims

section ClockClaims

/--
C3 (counterexample).  The claim says the quiet-time check never reads a
global clock and that one single "now" instant, captured at the start of the
per-rule loop, is used for every rule of a pass.  In the code `isQuietTime`
calls `new Date()` itself on every invocation, so each rule's quiet-time
decision uses its own clock reading.  Concretely: two rules with the same
owning user (hence identical quiet-time configuration) and identical met
conditions in one pass, where the clock advances from 10:00 local (quiet) to
00:00 local (not quiet) between their evaluations, get different quiet-time
decisions — rule r1 is suppressed (recorded, not notified) while rule r2 is
notified.
-/
theorem c3_counterexample :
    (c3Ctx "r1").user = (c3Ctx "r2").user ∧
    isQuietTime c3User (c3Clk 0) = true ∧
    isQuietTime c3User (c3Clk 1) = false ∧
    (evaluateRules [] c3Latest c3Clk [c3Ctx "r1", c3Ctx "r2"]).records.map
      (fun a => a.ruleId) = ["r1", "r2"] ∧
    (evaluateRules [] c3Latest c3Clk [c3Ctx "r1", c3Ctx "r2"]).notifications.map
      (fun t => t.ruleId) = ["r2"] := by
  refine ⟨rfl, rfl, rfl, ?_, ?_⟩ <;> rfl

/--
C3 (amended).  The quiet-time check reads the global clock itself at each
invocation, and the orchestrator makes a fresh clock read per rule rather
than capturing one single "now" for the pass, so quiet-time decisions within
one pass need not be mutually consistent (see the counterexample).  What
does hold: the check is a deterministic function of exactly the quiet-time
configuration and the local wall-clock time that its own clock read yields —
two invocations with the same configuration fields and the same local
wall-clock reading in the configured zone always return the same boolean (no
other field of the user or the instant influences the result).
-/
theorem c3_amended (u u' : User) (now now' : Instant)
    (h1 : u.quietTimeEnabled = u'.quietTimeEnabled)
    (h2 : u.quietTimeStart = u'.quietTimeStart)
    (h3 : u.quietTimeEnd = u'.quietTimeEnd)
    (h4 : u.quietTimeZone = u'.quietTimeZone)
    (h5 : ∀ tz, u.quietTimeZone = some tz → now.localMsOfDay tz = now'.localMsOfDay tz) :
    isQuietTime u now = isQuietTime u' now' := by
  unfold isQuietTime
  rw [← h1, ← h2, ← h3, ← h4]
  rcases hen : u.quietTimeEnabled with _ | _
  · rfl
  · rcases hs : u.quietTimeStart with _ | s
    · rfl
    · rcases he : u.quietTimeEnd with _ | e
      · rfl
      · rcases hz : u.quietTimeZone with _ | tz
        · rfl
        · have hnn : now.localMsOfDay tz = now'.localMsOfDay tz := h5 tz hz
          simp only [hnn]

/-- Witness for C3 (amended): two users sharing the configuration of
`c3User` but with different ids/emails, at two instants sharing the local
wall clock 10:00, get the same (true) quiet-time answer. -/
theorem c3_amended_witness :
    isQuietTime c3User { epochMs := 0, localMsOfDay := fun _ => 36000000 } =
      isQuietTime
        { id := "u2", email := "u2@example.com", phoneNumber := some "+15550000000",
          quietTimeEnabled := true, quietTimeStart := some ⟨9, 0⟩,
          quietTimeEnd := some ⟨17, 0⟩, quietTimeZone := some "America/New_York" }
        { epochMs := 99999, localMsOfDay := fun _ => 36000000 } :=
  c3_amended _ _ _ _ rfl rfl rfl rfl (fun _ _ => rfl)

end ClockClaims

section Bridge

/-- With a nonzero historical price the percentage computation is finite and
exact. -/
theorem percentChange_num (l h : ℚ) (hh : h ≠ 0) :
    percentChange l h = .num ((l - h) / h * 100) := by
  unfold percentChange JSNum.sub JSNum.div JSNum.mul
  simp [hh]

/-- With a zero historical price and a positive latest price the JavaScript
percentage computation yields `+Infinity`. -/
theorem percentChange_zero_pos (l : ℚ) (hl : 0 < l) : percentChange l 0 = .posInf := by
  unfold percentChange JSNum.sub JSNum.div JSNum.mul
  simp [hl.ne', hl]

/-- 0/0 gives NaN, so a zero latest price over a zero historical price gives
NaN. -/
theorem percentChange_zero_zero : percentChange 0 0 = .nan := by
  unfold percentChange JSNum.sub JSNum.div JSNum.mul
  norm_num

/-- With a zero historical price and a negative latest price the JavaScript
percentage computation yields `-Infinity`. -/
theorem percentChange_zero_neg (l : ℚ) (hl : l < 0) : percentChange l 0 = .negInf := by
  unfold percentChange JSNum.sub JSNum.div JSNum.mul
  simp [hl.ne, hl.not_lt]

theorem findFirstAtOrAfter_eq_fold (hist : List PriceHistory) (aid : String) (t : ℤ) :
    findFirstAtOrAfter hist aid t =
      (hist.filter (fun p => p.assetId == aid && decide (p.timestamp ≥ t))).foldl ffStep none := by
  rfl

theorem ffFold_mem (l : List PriceHistory) :
    ∀ (acc : Option PriceHistory) (q : PriceHistory),
      l.foldl ffStep acc = some q → q ∈ l ∨ acc = some q := by
  induction l with
  | nil => intro acc q h; exact Or.inr h
  | cons p ps ih =>
      intro acc q h
      rw [List.foldl_cons] at h
      rcases acc with _ | a
      · have h2 : List.foldl ffStep (some p) ps = some q := by simpa [ffStep] using h
        rcases ih (some p) q h2 with hin | hacc
        · exact Or.inl (List.mem_cons_of_mem p hin)
        · injection hacc with h3
          exact Or.inl (h3 ▸ List.mem_cons_self p ps)
      · by_cases hc : p.timestamp < a.timestamp
        · have h2 : List.foldl ffStep (some p) ps = some q := by simpa [ffStep, hc] using h
          rcases ih (some p) q h2 with hin | hacc
          · exact Or.inl (List.mem_cons_of_mem p hin)
          · injection hacc with h3
            exact Or.inl (h3 ▸ List.mem_cons_self p ps)
        · have h2 : List.foldl ffStep (some a) ps = some q := by simpa [ffStep, hc] using h
          rcases ih (some a) q h2 with hin | hacc
          · exact Or.inl (List.mem_cons_of_mem p hin)
          · exact Or.inr hacc

theorem ffFold_le (l : List PriceHistory) :
    ∀ (acc : Option PriceHistory) (q : PriceHistory),
      l.foldl ffStep acc = some q →
        (∀ p ∈ l, q.timestamp ≤ p.timestamp) ∧
        (∀ r, acc = some r → q.timestamp ≤ r.timestamp) := by
  induction l with
  | nil =>
      intro acc q h
      simp only [List.foldl_nil] at h
      refine ⟨by simp, fun r hr => ?_⟩
      rw [h] at hr
      injection hr with h2
      rw [h2]
  | cons p ps ih =>
      intro acc q h
      rw [List.foldl_cons] at h
      rcases acc with _ | a
      · have h2 : List.foldl ffStep (some p) ps = some q := by simpa [ffStep] using h
        obtain ⟨hall, hacc⟩ := ih (some p) q h2
        have hqp : q.timestamp ≤ p.timestamp := hacc p rfl
        refine ⟨fun x hx => ?_, fun r hr => by cases hr⟩
        rcases List.mem_cons.mp hx with h1 | h1
        · rw [h1]; exact hqp
        · exact hall x h1
      · by_cases hc : p.timestamp < a.timestamp
        · have h2 : List.foldl ffStep (some p) ps = some q := by simpa [ffStep, hc] using h
          obtain ⟨hall, hacc⟩ := ih (some p) q h2
          have hqp : q.timestamp ≤ p.timestamp := hacc p rfl
          refine ⟨fun x hx => ?_, fun r hr => ?_⟩
          · rcases List.mem_cons.mp hx with h1 | h1
            · rw [h1]; exact hqp
            · exact hall x h1
          · injection hr with h3
            subst h3
            omega
        · have h2 : List.foldl ffStep (some a) ps = some q := by simpa [ffStep, hc] using h
          obtain ⟨hall, hacc⟩ := ih (some a) q h2
          have hqa : q.timestamp ≤ a.timestamp := hacc a rfl
          refine ⟨fun x hx => ?_, fun r hr => ?_⟩
          · rcases List.mem_cons.mp hx with h1 | h1
            · rw [h1]; omega
            · exact hall x h1
          · injection hr with h3
            subst h3
            exact hqa

/--
The record returned by the evaluator's historical lookup is a stored price
point of the asset with timestamp at or after the window start, and it is
the earliest such point (ties allowed).
-/
theorem findFirstAtOrAfter_spec (hist : List PriceHistory) (aid : String) (t : ℤ)
    (sp : PriceHistory) (h : findFirstAtOrAfter hist aid t = some sp) :
    sp ∈ hist ∧ sp.assetId = aid ∧ t ≤ sp.timestamp ∧
      ∀ p ∈ hist, p.assetId = aid → t ≤ p.timestamp → sp.timestamp ≤ p.timestamp := by
  rw [findFirstAtOrAfter_eq_fold] at h
  have hmem : sp ∈ hist.filter (fun p => p.assetId == aid && decide (p.timestamp ≥ t)) := by
    rcases ffFold_mem _ _ _ h with h1 | h2
    · exact h1
    · cases h2
  have hprops := List.mem_filter.mp hmem
  have hsp : sp.assetId = aid ∧ t ≤ sp.timestamp := by
    have := hprops.2
    simp only [Bool.and_eq_true, beq_iff_eq, decide_eq_true_eq] at this
    exact ⟨this.1, this.2⟩
  refine ⟨hprops.1, hsp.1, hsp.2, fun p hp hpa hpt => ?_⟩
  have hpl : p ∈ hist.filter (fun p => p.assetId == aid && decide (p.timestamp ≥ t)) := by
    refine List.mem_filter.mpr ⟨hp, ?_⟩
    simp only [Bool.and_eq_true, beq_iff_eq, decide_eq_true_eq]
    exact ⟨hpa, hpt⟩
  exact (ffFold_le _ _ _ h).1 p hpl

end Bridge

section FilterLemmas

theorem passRecs_filter_pos (hist : List PriceHistory) (latest : String → Option PriceHistory)
    (clk : ℕ → Instant) (i0 : ℕ) (l : List RuleCtx) (x : String)
    (h : ∀ c ∈ l, c.rule.id ≠ x) :
    (passRecs hist latest clk i0 l).filter (fun a => a.ruleId == x) = [] := by
  rw [List.filter_eq_nil_iff]
  intro a ha
  obtain ⟨c, hc, hid⟩ := passRecs_ruleId hist latest clk i0 l a ha
  simp [hid, h c hc]

theorem passRecs_filter_neg (hist : List PriceHistory) (latest : String → Option PriceHistory)
    (clk : ℕ → Instant) (i0 : ℕ) (l : List RuleCtx) (x : String)
    (h : ∀ c ∈ l, c.rule.id ≠ x) :
    (passRecs hist latest clk i0 l).filter (fun a => a.ruleId != x)
      = passRecs hist latest clk i0 l := by
  rw [List.filter_eq_self]
  intro a ha
  obtain ⟨c, hc, hid⟩ := passRecs_ruleId hist latest clk i0 l a ha
  simp [hid, h c hc]

theorem passNotifs_filter_pos (hist : List PriceHistory) (latest : String → Option PriceHistory)
    (clk : ℕ → Instant) (i0 : ℕ) (l : List RuleCtx) (x : String)
    (h : ∀ c ∈ l, c.rule.id ≠ x) :
    (passNotifs hist latest clk i0 l).filter (fun t => t.ruleId == x) = [] := by
  rw [List.filter_eq_nil_iff]
  intro t ht
  obtain ⟨c, hc, hid⟩ := passNotifs_ruleId hist latest clk i0 l t ht
  simp [hid, h c hc]

theorem passNotifs_filter_neg (hist : List PriceHistory) (latest : String → Option PriceHistory)
    (clk : ℕ → Instant) (i0 : ℕ) (l : List RuleCtx) (x : String)
    (h : ∀ c ∈ l, c.rule.id ≠ x) :
    (passNotifs hist latest clk i0 l).filter (fun t => t.ruleId != x)
      = passNotifs hist latest clk i0 l := by
  rw [List.filter_eq_self]
  intro t ht
  obtain ⟨c, hc, hid⟩ := passNotifs_ruleId hist latest clk i0 l t ht
  simp [hid, h c hc]

theorem passNotifs_map_filter_pos (hist : List PriceHistory)
    (latest : String → Option PriceHistory) (clk : ℕ → Instant) (i0 : ℕ) (l : List RuleCtx)
    (s : ℤ) (x : String) (h : ∀ c ∈ l, c.rule.id ≠ x) :
    ((passNotifs hist latest clk i0 l).map (batchRecord s)).filter
      (fun a => a.ruleId == x) = [] := by
  rw [List.filter_eq_nil_iff]
  intro a ha
  obtain ⟨t, ht, hte⟩ := List.mem_map.mp ha
  obtain ⟨c, hc, hid⟩ := passNotifs_ruleId hist latest clk i0 l t ht
  rw [← hte]
  simp [batchRecord, hid, h c hc]

theorem passNotifs_map_filter_neg (hist : List PriceHistory)
    (latest : String → Option PriceHistory) (clk : ℕ → Instant) (i0 : ℕ) (l : List RuleCtx)
    (s : ℤ) (x : String) (h : ∀ c ∈ l, c.rule.id ≠ x) :
    ((passNotifs hist latest clk i0 l).map (batchRecord s)).filter
      (fun a => a.ruleId != x) = (passNotifs hist latest clk i0 l).map (batchRecord s) := by
  rw [List.filter_eq_self]
  intro a ha
  obtain ⟨t, ht, hte⟩ := List.mem_map.mp ha
  obtain ⟨c, hc, hid⟩ := passNotifs_ruleId hist latest clk i0 l t ht
  rw [← hte]
  simp [batchRecord, hid, h c hc]

theorem outcomeRecs_filter_pos (hist : List PriceHistory)
    (latest : String → Option PriceHistory) (now : Instant) (c : RuleCtx) :
    (outcomeRecs (processRule hist latest now c)).filter (fun a => a.ruleId == c.rule.id)
      = outcomeRecs (processRule hist latest now c) := by
  rw [List.filter_eq_self]
  intro a ha
  simp [outcomeRecs_ruleId hist latest now c a ha]

theorem outcomeRecs_filter_neg (hist : List PriceHistory)
    (latest : String → Option PriceHistory) (now : Instant) (c : RuleCtx) :
    (outcomeRecs (processRule hist latest now c)).filter (fun a => a.ruleId != c.rule.id)
      = [] := by
  rw [List.filter_eq_nil_iff]
  intro a ha
  simp [outcomeRecs_ruleId hist latest now c a ha]

theorem outcomeNotifs_filter_pos (hist : List PriceHistory)
    (latest : String → Option PriceHistory) (now : Instant) (c : RuleCtx) :
    (outcomeNotifs (processRule hist latest now c)).filter (fun t => t.ruleId == c.rule.id)
      = outcomeNotifs (processRule hist latest now c) := by
  rw [List.filter_eq_self]
  intro t ht
  simp [outcomeNotifs_ruleId hist latest now c t ht]

theorem outcomeNotifs_filter_neg (hist : List PriceHistory)
    (latest : String → Option PriceHistory) (now : Instant) (c : RuleCtx) :
    (outcomeNotifs (processRule hist latest now c)).filter (fun t => t.ruleId != c.rule.id)
      = [] := by
  rw [List.filter_eq_nil_iff]
  intro t ht
  simp [outcomeNotifs_ruleId hist latest now c t ht]

theorem outcomeNotifs_map_filter_pos (hist : List PriceHistory)
    (latest : String → Option PriceHistory) (now : Instant) (c : RuleCtx) (s : ℤ) :
    ((outcomeNotifs (processRule hist latest now c)).map (batchRecord s)).filter
      (fun a => a.ruleId == c.rule.id)
      = (outcomeNotifs (processRule hist latest now c)).map (batchRecord s) := by
  rw [List.filter_eq_self]
  intro a ha
  obtain ⟨t, ht, hte⟩ := List.mem_map.mp ha
  rw [← hte]
  simp [batchRecord, outcomeNotifs_ruleId hist latest now c t ht]

theorem outcomeNotifs_map_filter_neg (hist : List PriceHistory)
    (latest : String → Option PriceHistory) (now : Instant) (c : RuleCtx) (s : ℤ) :
    ((outcomeNotifs (processRule hist latest now c)).map (batchRecord s)).filter
      (fun a => a.ruleId != c.rule.id) = [] := by
  rw [List.filter_eq_nil_iff]
  intro a ha
  obtain ⟨t, ht, hte⟩ := List.mem_map.mp ha
  rw [← hte]
  simp [batchRecord, outcomeNotifs_ruleId hist latest now c t ht]

/-- An injected per-rule exception leaves the rule with no firing record and
no notification (the catch at the per-rule boundary). -/
theorem processRule_throws (hist : List PriceHistory) (latest : String → Option PriceHistory)
    (now : Instant) (c : RuleCtx) (h : c.evalThrows = true) :
    outcomeRecs (processRule hist latest now c) = [] ∧
    outcomeNotifs (processRule hist latest now c) = [] := by
  rcases hl : latest c.assetId with _ | lp
  · rw [processRule_none hist latest now c hl]
    exact ⟨rfl, rfl⟩
  · rw [processRule_some hist latest now c lp hl]
    by_cases hb : shouldSkipCooldown now c = true
    · simp [hb, outcomeRecs, outcomeNotifs]
    · simp only [Bool.not_eq_true] at hb
      simp [hb, h, outcomeRecs, outcomeNotifs]

/-- The `ruleId`-filtered firing records of a pass reduce to the middle
rule's own contributions when no sibling shares its rule id. -/
theorem evaluateRules_records_mid (hist : List PriceHistory)
    (latest : String → Option PriceHistory) (clk : ℕ → Instant) (pre post : List RuleCtx)
    (ctx : RuleCtx) (hpre : ∀ c ∈ pre, c.rule.id ≠ ctx.rule.id)
    (hpost : ∀ c ∈ post, c.rule.id ≠ ctx.rule.id) :
    (evaluateRules hist latest clk (pre ++ ctx :: post)).records.filter
        (fun a => a.ruleId == ctx.rule.id)
      = outcomeRecs (processRule hist latest (clk pre.length) ctx)
        ++ (outcomeNotifs (processRule hist latest (clk pre.length) ctx)).map
             (batchRecord (clk (pre ++ ctx :: post).length).epochMs) := by
  rw [evaluateRules_eq]
  simp only [passRecs_append, passNotifs_append, passRecs, passNotifs, Nat.zero_add,
    List.map_append, List.filter_append]
  rw [passRecs_filter_pos hist latest clk 0 pre ctx.rule.id hpre,
    passRecs_filter_pos hist latest clk (pre.length + 1) post ctx.rule.id hpost,
    passNotifs_map_filter_pos hist latest clk 0 pre _ ctx.rule.id hpre,
    passNotifs_map_filter_pos hist latest clk (pre.length + 1) post _ ctx.rule.id hpost,
    outcomeRecs_filter_pos, outcomeNotifs_map_filter_pos]
  simp

/-- The `ruleId`-filtered notifications of a pass reduce to the middle
rule's own contribution when no sibling shares its rule id. -/
theorem evaluateRules_notifs_mid (hist : List PriceHistory)
    (latest : String → Option PriceHistory) (clk : ℕ → Instant) (pre post : List RuleCtx)
    (ctx : RuleCtx) (hpre : ∀ c ∈ pre, c.rule.id ≠ ctx.rule.id)
    (hpost : ∀ c ∈ post, c.rule.id ≠ ctx.rule.id) :
    (evaluateRules hist latest clk (pre ++ ctx :: post)).notifications.filter
        (fun t => t.ruleId == ctx.rule.id)
      = outcomeNotifs (processRule hist latest (clk pre.length) ctx) := by
  rw [evaluateRules_eq]
  simp only [passNotifs_append, passNotifs, Nat.zero_add, List.filter_append]
  rw [passNotifs_filter_pos hist latest clk 0 pre ctx.rule.id hpre,
    passNotifs_filter_pos hist latest clk (pre.length + 1) post ctx.rule.id hpost,
    outcomeNotifs_filter_pos]
  simp

end FilterLemmas

section OrchestratorClaims

/--
C4.  For every rule whose condition is met during a pass (latest price
present, not in cooldown, not throwing), exactly one firing record carrying
the latest price as triggering price is written for that rule — whether or
not the user is in quiet time — and if the user is in quiet time at that
rule's evaluation instant, zero notification events for that rule are handed
to the dispatcher.
-/
theorem c4_suppressed_firing_recorded (hist : List PriceHistory)
    (latest : String → Option PriceHistory) (clk : ℕ → Instant) (pre post : List RuleCtx)
    (ctx : RuleCtx) (lp : PriceHistory)
    (hpre : ∀ c ∈ pre, c.rule.id ≠ ctx.rule.id)
    (hpost : ∀ c ∈ post, c.rule.id ≠ ctx.rule.id)
    (hlp : latest ctx.assetId = some lp)
    (hcool : shouldSkipCooldown (clk pre.length) ctx = false)
    (hthrow : ctx.evalThrows = false)
    (hmet : evalCondition hist ctx.assetId lp ctx.rule = true) :
    (∃ a, (evaluateRules hist latest clk (pre ++ ctx :: post)).records.filter
        (fun x => x.ruleId == ctx.rule.id) = [a] ∧ a.triggeringPrice = lp.price) ∧
    (isQuietTime ctx.user (clk pre.length) = true →
      (evaluateRules hist latest clk (pre ++ ctx :: post)).notifications.filter
        (fun t => t.ruleId == ctx.rule.id) = []) := by
  have hrec := evaluateRules_records_mid hist latest clk pre post ctx hpre hpost
  have hnot := evaluateRules_notifs_mid hist latest clk pre post ctx hpre hpost
  rw [processRule_some hist latest (clk pre.length) ctx lp hlp] at hrec hnot
  by_cases hq : isQuietTime ctx.user (clk pre.length) = true
  · simp only [hcool, hthrow, hmet, hq, Bool.false_eq_true, if_false, if_true,
      outcomeRecs, outcomeNotifs, List.map_nil, List.append_nil] at hrec hnot
    exact ⟨⟨_, hrec, rfl⟩, fun _ => hnot⟩
  · simp only [Bool.not_eq_true] at hq
    simp only [hcool, hthrow, hmet, hq, Bool.false_eq_true, if_false, if_true,
      outcomeRecs, outcomeNotifs, List.map_cons, List.map_nil, List.nil_append,
      batchRecord] at hrec hnot
    refine ⟨⟨_, hrec, rfl⟩, fun hcontra => ?_⟩
    rw [hq] at hcontra
    cases hcontra

/--
C7.  The cooldown gate: a rule with no prior firing is never skipped; with a
prior firing it is skipped iff that firing's instant is strictly later than
now minus the cooldown length; and a skipped rule is not condition-evaluated
at all (its outcome is `skippedCooldown` whatever the price history says),
producing no firing record and no notification in the pass.
-/
theorem c7_cooldown_gate (hist : List PriceHistory)
    (latest : String → Option PriceHistory) (clk : ℕ → Instant) (pre post : List RuleCtx)
    (ctx : RuleCtx) (lp : PriceHistory)
    (hpre : ∀ c ∈ pre, c.rule.id ≠ ctx.rule.id)
    (hpost : ∀ c ∈ post, c.rule.id ≠ ctx.rule.id)
    (hlp : latest ctx.assetId = some lp) :
    (ctx.lastTriggered = none → shouldSkipCooldown (clk pre.length) ctx = false) ∧
    (∀ la, ctx.lastTriggered = some la →
      (shouldSkipCooldown (clk pre.length) ctx = true ↔
        la.triggeredAt > (clk pre.length).epochMs - RULE_COOLDOWN_MINUTES * 60000)) ∧
    (shouldSkipCooldown (clk pre.length) ctx = true →
      (∀ hist2, processRule hist2 latest (clk pre.length) ctx = .skippedCooldown) ∧
      (evaluateRules hist latest clk (pre ++ ctx :: post)).records.filter
        (fun a => a.ruleId == ctx.rule.id) = [] ∧
      (evaluateRules hist latest clk (pre ++ ctx :: post)).notifications.filter
        (fun t => t.ruleId == ctx.rule.id) = []) := by
  refine ⟨?_, ?_, ?_⟩
  · intro h
    unfold shouldSkipCooldown
    rw [h]
  · intro la h
    unfold shouldSkipCooldown
    rw [h]
    simp
  · intro hskip
    have hp : ∀ hist2, processRule hist2 latest (clk pre.length) ctx = .skippedCooldown := by
      intro hist2
      rw [processRule_some hist2 latest (clk pre.length) ctx lp hlp, if_pos hskip]
    refine ⟨hp, ?_, ?_⟩
    · rw [evaluateRules_records_mid hist latest clk pre post ctx hpre hpost, hp hist]
      simp [outcomeRecs, outcomeNotifs]
    · rw [evaluateRules_notifs_mid hist latest clk pre post ctx hpre hpost, hp hist]
      simp [outcomeNotifs]

theorem outcomeRecs_filter_neg2 (hist : List PriceHistory)
    (latest : String → Option PriceHistory) (now : Instant) (c : RuleCtx) (x : String)
    (hx : c.rule.id = x) :
    (outcomeRecs (processRule hist latest now c)).filter (fun a => a.ruleId != x) = [] := by
  subst hx
  exact outcomeRecs_filter_neg hist latest now c

theorem outcomeNotifs_map_filter_neg2 (hist : List PriceHistory)
    (latest : String → Option PriceHistory) (now : Instant) (c : RuleCtx) (s : ℤ) (x : String)
    (hx : c.rule.id = x) :
    ((outcomeNotifs (processRule hist latest now c)).map (batchRecord s)).filter
      (fun a => a.ruleId != x) = [] := by
  subst hx
  exact outcomeNotifs_map_filter_neg hist latest now c s

theorem outcomeNotifs_filter_neg2 (hist : List PriceHistory)
    (latest : String → Option PriceHistory) (now : Instant) (c : RuleCtx) (x : String)
    (hx : c.rule.id = x) :
    (outcomeNotifs (processRule hist latest now c)).filter (fun t => t.ruleId != x) = [] := by
  subst hx
  exact outcomeNotifs_filter_neg hist latest now c

/--
C8.  Error isolation: a rule whose evaluation throws contributes no firing
record and no notification (it is treated as not met), and every sibling
rule in the same pass is recorded and notified exactly as it would have been
had the failing rule not thrown — the pass output with the throwing rule
equals the pass output without the throw with that one rule's contributions
removed.
-/
theorem c8_isolation (hist : List PriceHistory) (latest : String → Option PriceHistory)
    (clk : ℕ → Instant) (pre post : List RuleCtx) (r : RuleCtx)
    (hpre : ∀ c ∈ pre, c.rule.id ≠ r.rule.id)
    (hpost : ∀ c ∈ post, c.rule.id ≠ r.rule.id) :
    outcomeRecs (processRule hist latest (clk pre.length) { r with evalThrows := true }) = [] ∧
    outcomeNotifs (processRule hist latest (clk pre.length) { r with evalThrows := true }) = [] ∧
    (evaluateRules hist latest clk (pre ++ { r with evalThrows := true } :: post)).records
      = (evaluateRules hist latest clk
          (pre ++ { r with evalThrows := false } :: post)).records.filter
            (fun a => a.ruleId != r.rule.id) ∧
    (evaluateRules hist latest clk (pre ++ { r with evalThrows := true } :: post)).notifications
      = (evaluateRules hist latest clk
          (pre ++ { r with evalThrows := false } :: post)).notifications.filter
            (fun t => t.ruleId != r.rule.id) := by
  have hthrown := processRule_throws hist latest (clk pre.length)
    { r with evalThrows := true } rfl
  refine ⟨hthrown.1, hthrown.2, ?_, ?_⟩
  · rw [evaluateRules_eq, evaluateRules_eq]
    simp only [passRecs_append, passNotifs_append, passRecs, passNotifs, Nat.zero_add,
      List.map_append, List.filter_append, List.length_append, List.length_cons]
    rw [hthrown.1, hthrown.2,
      passRecs_filter_neg hist latest clk 0 pre r.rule.id hpre,
      passRecs_filter_neg hist latest clk (pre.length + 1) post r.rule.id hpost,
      passNotifs_map_filter_neg hist latest clk 0 pre _ r.rule.id hpre,
      passNotifs_map_filter_neg hist latest clk (pre.length + 1) post _ r.rule.id hpost,
      outcomeRecs_filter_neg2 hist latest (clk pre.length) { r with evalThrows := false }
        r.rule.id rfl,
      outcomeNotifs_map_filter_neg2 hist latest (clk pre.length) { r with evalThrows := false }
        (clk (pre.length + (post.length + 1))).epochMs r.rule.id rfl]
    simp
  · rw [evaluateRules_eq, evaluateRules_eq]
    simp only [passNotifs_append, passNotifs, Nat.zero_add, List.filter_append]
    rw [hthrown.2,
      passNotifs_filter_neg hist latest clk 0 pre r.rule.id hpre,
      passNotifs_filter_neg hist latest clk (pre.length + 1) post r.rule.id hpost,
      outcomeNotifs_filter_neg2 hist latest (clk pre.length) { r with evalThrows := false }
        r.rule.id rfl]

end OrchestratorClaims

section ConditionHelpers

/-- The percentage-decrease branch with a found nonzero-price historical
point: met iff the signed percentage change is ≤ the stored value. -/
theorem evalCondition_dec_iff (hist : List PriceHistory) (aid : String) (lp : PriceHistory)
    (rule : NotificationRule) (w : ℤ) (sp : PriceHistory)
    (htype : rule.type = .PERCENT_CHANGE_DECREASE)
    (hw : rule.timeWindowHours = some w) (hw0 : w ≠ 0)
    (hfind : findFirstAtOrAfter hist aid (lp.timestamp - w * 3600000) = some sp)
    (hpos : sp.price ≠ 0) :
    evalCondition hist aid lp rule = true ↔
      (lp.price - sp.price) / sp.price * 100 ≤ rule.value := by
  unfold evalCondition
  simp only [htype, hw, if_neg hw0, hfind, percentChange_num lp.price sp.price hpos,
    JSNum.jsLe, decide_eq_true_eq]

/-- The percentage-increase branch with a found nonzero-price historical
point: met iff the signed percentage change is ≥ the stored value. -/
theorem evalCondition_inc_iff (hist : List PriceHistory) (aid : String) (lp : PriceHistory)
    (rule : NotificationRule) (w : ℤ) (sp : PriceHistory)
    (htype : rule.type = .PERCENT_CHANGE_INCREASE)
    (hw : rule.timeWindowHours = some w) (hw0 : w ≠ 0)
    (hfind : findFirstAtOrAfter hist aid (lp.timestamp - w * 3600000) = some sp)
    (hpos : sp.price ≠ 0) :
    evalCondition hist aid lp rule = true ↔
      rule.value ≤ (lp.price - sp.price) / sp.price * 100 := by
  unfold evalCondition
  simp only [htype, hw, if_neg hw0, hfind, percentChange_num lp.price sp.price hpos,
    JSNum.jsGe, JSNum.jsLe, decide_eq_true_eq]

/-- The percentage-decrease branch with a found zero-price historical point
and a nonnegative latest price: never met (the percentage change is
`+Infinity` or `NaN`). -/
theorem evalCondition_dec_zeroHist (hist : List PriceHistory) (aid : String)
    (lp : PriceHistory) (rule : NotificationRule) (w : ℤ) (sp : PriceHistory)
    (htype : rule.type = .PERCENT_CHANGE_DECREASE)
    (hw : rule.timeWindowHours = some w) (hw0 : w ≠ 0)
    (hfind : findFirstAtOrAfter hist aid (lp.timestamp - w * 3600000) = some sp)
    (hzero : sp.price = 0) (hlp : 0 ≤ lp.price) :
    evalCondition hist aid lp rule = false := by
  unfold evalCondition
  simp only [htype, hw, if_neg hw0, hfind, hzero]
  rcases eq_or_lt_of_le hlp with h0 | h0
  · simp only [← h0, percentChange_zero_zero, JSNum.jsLe]
  · simp only [percentChange_zero_pos lp.price h0, JSNum.jsLe]

/-- The percentage-increase branch with a found zero-price historical point
and a nonnegative latest price: met iff the latest price is positive (the
unguarded division yields `+Infinity`, which exceeds every threshold). -/
theorem evalCondition_inc_zeroHist (hist : List PriceHistory) (aid : String)
    (lp : PriceHistory) (rule : NotificationRule) (w : ℤ) (sp : PriceHistory)
    (htype : rule.type = .PERCENT_CHANGE_INCREASE)
    (hw : rule.timeWindowHours = some w) (hw0 : w ≠ 0)
    (hfind : findFirstAtOrAfter hist aid (lp.timestamp - w * 3600000) = some sp)
    (hzero : sp.price = 0) (hlp : 0 ≤ lp.price) :
    evalCondition hist aid lp rule = true ↔ 0 < lp.price := by
  unfold evalCondition
  simp only [htype, hw, if_neg hw0, hfind, hzero]
  rcases eq_or_lt_of_le hlp with h0 | h0
  · simp only [← h0, percentChange_zero_zero, JSNum.jsGe, JSNum.jsLe]
    simp
  · simp only [percentChange_zero_pos lp.price h0, JSNum.jsGe, JSNum.jsLe]
    simp [h0]

end ConditionHelpers

section ConditionClaims

/--
C1 (counterexample).  The claim says a percentage-decrease rule with stored
non-negative threshold magnitude 5 is met iff `pct <= -5`, so historical
100, latest 97 (pct = −3) must not trigger.  The code compares the signed
percentage change against the stored value directly
(`percentChange <= rule.value`), and −3 ≤ 5, so the rule IS met at exactly
the claim's example input.
-/
theorem c1_counterexample :
    evalCondition [{ assetId := "btc", price := 100, timestamp := 0 }] "btc"
      { assetId := "btc", price := 97, timestamp := 86400000 }
      { id := "r1", type := .PERCENT_CHANGE_DECREASE, value := 5, timeWindowHours := some 24,
        isEnabled := true } = true ∧
    ((97 - 100 : ℚ) / 100 * 100 = -3 ∧ ¬((-3 : ℚ) ≤ -5)) := by
  refine ⟨?_, by norm_num, by norm_num⟩
  have h := evalCondition_dec_iff [{ assetId := "btc", price := 100, timestamp := 0 }] "btc"
    { assetId := "btc", price := 97, timestamp := 86400000 }
    { id := "r1", type := .PERCENT_CHANGE_DECREASE, value := 5, timeWindowHours := some 24,
      isEnabled := true } 24 { assetId := "btc", price := 100, timestamp := 0 }
    rfl rfl (by norm_num) (by decide) (by norm_num)
  exact h.mpr (by norm_num)

/--
C1 (amended).  For every percentage-decrease rule and positive historical
price, the condition is met iff the signed percentage change
`(latest - historical) / historical * 100` is ≤ the stored value used
as-is — no negation and no absolute value is applied, so a stored positive
magnitude t triggers on every decrease (and also on any increase below t
percent); magnitude semantics would require storing the threshold as a
negative number.
-/
theorem c1_amended (hist : List PriceHistory) (aid : String) (lp : PriceHistory)
    (rule : NotificationRule) (w : ℤ) (sp : PriceHistory)
    (htype : rule.type = .PERCENT_CHANGE_DECREASE)
    (hw : rule.timeWindowHours = some w) (hw0 : w ≠ 0)
    (hfind : findFirstAtOrAfter hist aid (lp.timestamp - w * 3600000) = some sp)
    (hpos : 0 < sp.price) :
    evalCondition hist aid lp rule = true ↔
      (lp.price - sp.price) / sp.price * 100 ≤ rule.value :=
  evalCondition_dec_iff hist aid lp rule w sp htype hw hw0 hfind (ne_of_gt hpos)

/-- Witness for C1 (amended): historical 100, latest 97, stored threshold 5
— met, because −3 ≤ 5. -/
theorem c1_amended_witness :
    evalCondition [{ assetId := "btc", price := 100, timestamp := 0 }] "btc"
      { assetId := "btc", price := 97, timestamp := 86400000 }
      { id := "r2", type := .PERCENT_CHANGE_DECREASE, value := 5, timeWindowHours := some 24,
        isEnabled := true } = true := by
  have h := c1_amended [{ assetId := "btc", price := 100, timestamp := 0 }] "btc"
    { assetId := "btc", price := 97, timestamp := 86400000 }
    { id := "r2", type := .PERCENT_CHANGE_DECREASE, value := 5, timeWindowHours := some 24,
      isEnabled := true } 24 { assetId := "btc", price := 100, timestamp := 0 }
    rfl rfl (by norm_num) (by decide) (by norm_num)
  exact h.mpr (by norm_num)

/--
C2 (counterexample).  The claim says a zero historical price is a division
guard: percentage rules are never met.  The code only checks that a
historical record exists (`if (startPriceRecord)`), not that its price is
nonzero; with historical price 0 and latest price 10, the JavaScript
percentage change is `(10 - 0) / 0 * 100 = Infinity`, and `Infinity >= 5`
holds, so the percentage-increase rule IS met.
-/
theorem c2_counterexample :
    findFirstAtOrAfter [{ assetId := "btc", price := 0, timestamp := 0 }] "btc"
      ((3600000 : ℤ) - 1 * 3600000) = some { assetId := "btc", price := 0, timestamp := 0 } ∧
    evalCondition [{ assetId := "btc", price := 0, timestamp := 0 }] "btc"
      { assetId := "btc", price := 10, timestamp := 3600000 }
      { id := "r1", type := .PERCENT_CHANGE_INCREASE, value := 5, timeWindowHours := some 1,
        isEnabled := true } = true := by
  refine ⟨by decide, ?_⟩
  have h := evalCondition_inc_zeroHist [{ assetId := "btc", price := 0, timestamp := 0 }] "btc"
    { assetId := "btc", price := 10, timestamp := 3600000 }
    { id := "r1", type := .PERCENT_CHANGE_INCREASE, value := 5, timeWindowHours := some 1,
      isEnabled := true } 1 { assetId := "btc", price := 0, timestamp := 0 }
    rfl rfl (by norm_num) (by decide) rfl (by norm_num)
  exact h.mpr (by norm_num)

/--
C2 (amended).  With a zero historical price (and a nonnegative latest price,
the price-store invariant): a percentage-decrease rule is never met (the
percentage change is `+Infinity` or `NaN`, neither of which is ≤ any finite
threshold), but a percentage-increase rule is met iff the latest price is
positive — the division is unguarded and yields `+Infinity`, which exceeds
every finite threshold.
-/
theorem c2_amended (hist : List PriceHistory) (aid : String) (lp : PriceHistory)
    (rule : NotificationRule) (w : ℤ) (sp : PriceHistory)
    (hw : rule.timeWindowHours = some w) (hw0 : w ≠ 0)
    (hfind : findFirstAtOrAfter hist aid (lp.timestamp - w * 3600000) = some sp)
    (hzero : sp.price = 0) (hlp : 0 ≤ lp.price) :
    (rule.type = .PERCENT_CHANGE_DECREASE → evalCondition hist aid lp rule = false) ∧
    (rule.type = .PERCENT_CHANGE_INCREASE →
      (evalCondition hist aid lp rule = true ↔ 0 < lp.price)) :=
  ⟨fun htype => evalCondition_dec_zeroHist hist aid lp rule w sp htype hw hw0 hfind hzero hlp,
   fun htype => evalCondition_inc_zeroHist hist aid lp rule w sp htype hw hw0 hfind hzero hlp⟩

/-- Witness for C2 (amended): zero historical price with latest 10 — the
decrease rule is not met. -/
theorem c2_amended_witness :
    evalCondition [{ assetId := "btc", price := 0, timestamp := 0 }] "btc"
      { assetId := "btc", price := 10, timestamp := 3600000 }
      { id := "r2", type := .PERCENT_CHANGE_DECREASE, value := 5, timeWindowHours := some 1,
        isEnabled := true } = false := by
  have h := c2_amended [{ assetId := "btc", price := 0, timestamp := 0 }] "btc"
    { assetId := "btc", price := 10, timestamp := 3600000 }
    { id := "r2", type := .PERCENT_CHANGE_DECREASE, value := 5, timeWindowHours := some 1,
      isEnabled := true } 1 { assetId := "btc", price := 0, timestamp := 0 }
    rfl (by norm_num) (by decide) rfl (by norm_num)
  exact h.1 rfl

/--
C9.  For a percentage-increase rule with window w and a found historical
point of positive price: the point used is a stored point of the asset with
timestamp at or after `latest.timestamp − w` hours and is the earliest such
point; the condition is met iff `(latest − historical)/historical·100 ≥
threshold`; and (regardless of rule kind) every firing record or
notification produced by any rule carries the latest price of the rule's
asset as its triggering price.
-/
theorem c9_pct_increase (hist : List PriceHistory) (aid : String) (lp : PriceHistory)
    (rule : NotificationRule) (w : ℤ) (sp : PriceHistory)
    (htype : rule.type = .PERCENT_CHANGE_INCREASE)
    (hw : rule.timeWindowHours = some w) (hwpos : 0 < w)
    (hfind : findFirstAtOrAfter hist aid (lp.timestamp - w * 3600000) = some sp)
    (hpos : 0 < sp.price) :
    (sp ∈ hist ∧ sp.assetId = aid ∧ lp.timestamp - w * 3600000 ≤ sp.timestamp ∧
      ∀ p ∈ hist, p.assetId = aid → lp.timestamp - w * 3600000 ≤ p.timestamp →
        sp.timestamp ≤ p.timestamp) ∧
    (evalCondition hist aid lp rule = true ↔
      rule.value ≤ (lp.price - sp.price) / sp.price * 100) ∧
    (∀ (hist2 : List PriceHistory) (latest : String → Option PriceHistory) (now : Instant)
        (c : RuleCtx) (lp2 : PriceHistory), latest c.assetId = some lp2 →
      (∀ rec, processRule hist2 latest now c = .metSuppressed rec →
        rec.triggeringPrice = lp2.price) ∧
      (∀ info, processRule hist2 latest now c = .metNotified info →
        info.triggeringPrice = lp2.price)) := by
  refine ⟨findFirstAtOrAfter_spec hist aid _ sp hfind, ?_, ?_⟩
  · exact evalCondition_inc_iff hist aid lp rule w sp htype hw (by omega) hfind (ne_of_gt hpos)
  · intro hist2 latest now c lp2 hl2
    constructor
    · intro rec hrec
      obtain ⟨lp3, hl3, -, -, -, -, he⟩ :=
        processRule_metSuppressed_inv hist2 latest now c rec hrec
      rw [hl2] at hl3
      injection hl3 with h3
      rw [he, ← h3]
    · intro info hinfo
      obtain ⟨lp3, hl3, -, -, -, -, he⟩ :=
        processRule_metNotified_inv hist2 latest now c info hinfo
      rw [hl2] at hl3
      injection hl3 with h3
      rw [he, ← h3]

/-- Witness for C9: historical 100 at T−24h, latest 115 at T, threshold 10,
window 24h — met (15 ≥ 10). -/
theorem c9_pct_increase_witness :
    evalCondition [{ assetId := "btc", price := 100, timestamp := 0 }] "btc"
      { assetId := "btc", price := 115, timestamp := 86400000 }
      { id := "r1", type := .PERCENT_CHANGE_INCREASE, value := 10, timeWindowHours := some 24,
        isEnabled := true } = true := by
  have h := c9_pct_increase [{ assetId := "btc", price := 100, timestamp := 0 }] "btc"
    { assetId := "btc", price := 115, timestamp := 86400000 }
    { id := "r1", type := .PERCENT_CHANGE_INCREASE, value := 10, timeWindowHours := some 24,
      isEnabled := true } 24 { assetId := "btc", price := 100, timestamp := 0 }
    rfl rfl (by norm_num) (by decide) (by norm_num)
  exact h.2.1.mpr (by norm_num)

/--
C10.  An enabled percentage rule whose `timeWindowHours` is null or zero
(both falsy in `if (rule.timeWindowHours)`) is evaluated as condition not
met without consulting the price-history table at all (the outcome is
identical for every history) and without error, and it never produces a
firing record or a notification.
-/
theorem c10_no_window (ctx : RuleCtx)
    (htype : ctx.rule.type = .PERCENT_CHANGE_INCREASE ∨
      ctx.rule.type = .PERCENT_CHANGE_DECREASE)
    (hw : ctx.rule.timeWindowHours = none ∨ ctx.rule.timeWindowHours = some 0)
    (hen : ctx.rule.isEnabled = true) :
    (∀ hist aid lp, evalCondition hist aid lp ctx.rule = false) ∧
    (∀ hist hist2 latest now,
      processRule hist latest now ctx = processRule hist2 latest now ctx) ∧
    (∀ hist latest now, outcomeRecs (processRule hist latest now ctx) = [] ∧
      outcomeNotifs (processRule hist latest now ctx) = []) := by
  have hcond : ∀ hist aid lp, evalCondition hist aid lp ctx.rule = false := by
    intro hist aid lp
    unfold evalCondition
    rcases htype with h | h <;> rcases hw with h2 | h2 <;> simp [h, h2]
  refine ⟨hcond, ?_, ?_⟩
  · intro hist hist2 latest now
    rcases hl : latest ctx.assetId with _ | lp
    · rw [processRule_none hist latest now ctx hl, processRule_none hist2 latest now ctx hl]
    · rw [processRule_some hist latest now ctx lp hl, processRule_some hist2 latest now ctx lp hl,
        hcond hist ctx.assetId lp, hcond hist2 ctx.assetId lp]
  · intro hist latest now
    rcases hl : latest ctx.assetId with _ | lp
    · rw [processRule_none hist latest now ctx hl]
      exact ⟨rfl, rfl⟩
    · rw [processRule_some hist latest now ctx lp hl, hcond hist ctx.assetId lp]
      by_cases hb : shouldSkipCooldown now ctx = true
      · simp [hb, outcomeRecs, outcomeNotifs]
      · simp only [Bool.not_eq_true] at hb
        by_cases ht : ctx.evalThrows = true
        · simp [hb, ht, outcomeRecs, outcomeNotifs]
        · simp only [Bool.not_eq_true] at ht
          simp [hb, ht, outcomeRecs, outcomeNotifs]

end ConditionClaims

section Witnesses

/-- Witness for C4: a met price-above rule owned by a quiet-time user at
local 10:00 — one firing record with the latest price 100, no
notification. -/
theorem c4_witness :
    (∃ a, (evaluateRules [] c3Latest (fun _ => ⟨0, fun _ => 36000000⟩)
        [c3Ctx "r4"]).records.filter (fun x => x.ruleId == "r4") = [a] ∧
      a.triggeringPrice = 100) ∧
    (evaluateRules [] c3Latest (fun _ => ⟨0, fun _ => 36000000⟩)
        [c3Ctx "r4"]).notifications.filter (fun t => t.ruleId == "r4") = [] := by
  have h := c4_suppressed_firing_recorded [] c3Latest (fun _ => ⟨0, fun _ => 36000000⟩)
    [] [] (c3Ctx "r4") { assetId := "btc", price := 100, timestamp := 0 }
    (by simp) (by simp) rfl rfl rfl rfl
  exact ⟨h.1, h.2 rfl⟩

/-- Witness for C7: a rule whose most recent firing is 30 minutes old with
a 60-minute cooldown is skipped — no record and no notification — even
though its condition (price 100 > 50) currently holds. -/
theorem c7_witness :
    shouldSkipCooldown ⟨36000000, fun _ => 0⟩ c7Ctx = true ∧
    evalCondition [] "btc" { assetId := "btc", price := 100, timestamp := 0 } c7Ctx.rule
      = true ∧
    processRule [] c3Latest ⟨36000000, fun _ => 0⟩ c7Ctx = .skippedCooldown ∧
    (evaluateRules [] c3Latest (fun _ => ⟨36000000, fun _ => 0⟩) [c7Ctx]).records.filter
      (fun a => a.ruleId == "r7") = [] ∧
    (evaluateRules [] c3Latest (fun _ => ⟨36000000, fun _ => 0⟩) [c7Ctx]).notifications.filter
      (fun t => t.ruleId == "r7") = [] := by
  have h := c7_cooldown_gate [] c3Latest (fun _ => ⟨36000000, fun _ => 0⟩) [] [] c7Ctx
    { assetId := "btc", price := 100, timestamp := 0 } (by simp) (by simp) rfl
  obtain ⟨hp, hrec, hnot⟩ := h.2.2 rfl
  exact ⟨rfl, rfl, hp [], hrec, hnot⟩

/-- Witness for C8: a throwing rule alongside one sibling — the pass with
the throw equals the pass without it minus the throwing rule's own
contributions. -/
theorem c8_witness :
    (evaluateRules [] c3Latest (fun _ => ⟨0, fun _ => 0⟩)
        ([] ++ { c8C with evalThrows := true } :: [c8B])).records
      = (evaluateRules [] c3Latest (fun _ => ⟨0, fun _ => 0⟩)
          ([] ++ { c8C with evalThrows := false } :: [c8B])).records.filter
            (fun a => a.ruleId != "rC") ∧
    (evaluateRules [] c3Latest (fun _ => ⟨0, fun _ => 0⟩)
        ([] ++ { c8C with evalThrows := true } :: [c8B])).notifications
      = (evaluateRules [] c3Latest (fun _ => ⟨0, fun _ => 0⟩)
          ([] ++ { c8C with evalThrows := false } :: [c8B])).notifications.filter
            (fun t => t.ruleId != "rC") := by
  have h := c8_isolation [] c3Latest (fun _ => ⟨0, fun _ => 0⟩) [] [c8B] c8C
    (by simp)
    (by
      intro c hc
      rw [List.mem_singleton] at hc
      subst hc
      decide)
  exact ⟨h.2.2.1, h.2.2.2⟩

/-- Witness for C10: an enabled percentage-increase rule with a null time
window — condition false and no output, identically for two different
price-history tables. -/
theorem c10_witness :
    evalCondition [{ assetId := "btc", price := 100, timestamp := 0 }] "btc"
      { assetId := "btc", price := 200, timestamp := 3600000 } c10Ctx.rule = false ∧
    processRule [{ assetId := "btc", price := 100, timestamp := 0 }] c3Latest
        ⟨0, fun _ => 0⟩ c10Ctx
      = processRule [] c3Latest ⟨0, fun _ => 0⟩ c10Ctx ∧
    outcomeRecs (processRule [] c3Latest ⟨0, fun _ => 0⟩ c10Ctx) = [] ∧
    outcomeNotifs (processRule [] c3Latest ⟨0, fun _ => 0⟩ c10Ctx) = [] := by
  have h := c10_no_window c10Ctx (Or.inl rfl) (Or.inl rfl) rfl
  exact ⟨h.1 _ "btc" _, h.2.1 _ [] c3Latest ⟨0, fun _ => 0⟩,
    (h.2.2 [] c3Latest ⟨0, fun _ => 0⟩).1, (h.2.2 [] c3Latest ⟨0, fun _ => 0⟩).2⟩

end Witnesses

end DLATC
